import Mathlib

/-!
Verification of the serial telemetry kernel of the IoT gas-monitoring
host application (sources: `Python/gas_monitor_CLI.py`, the CLI
controller, and `Python/kode.py`, the PyQt GUI controller).

Strings are embedded as `List Char`.  Python's `str.split(sep)` with a
one-character separator, `str.startswith`, `int(s)` conversion,
`datetime.strptime` / `strftime` on the fixed `%Y-%m-%d %H:%M:%S`
format, and the flat `json.dump` / `json.load` round trip used by the
log store are each given executable definitions translated from the
source's behaviour.
-/

namespace GasMonitor

/-! ### Decimal digits: printing and parsing

Python's `int(s)`, as used on the wire fields, accepts an optional
sign followed by decimal ASCII digits (leading/trailing whitespace,
underscores and non-ASCII digits are out of the modelled input space);
`str(n)` and f-string interpolation print a `-` sign and the decimal
digits.  Both are modelled on `List Char`.
-/

/-- The value of a decimal digit character, `none` when not a digit. -/
def digitVal (c : Char) : Option Nat :=
  if '0' ≤ c ∧ c ≤ '9' then some (c.toNat - '0'.toNat) else none

/-- The decimal digit character for `d < 10`. -/
def digitChar (d : Nat) : Char := Char.ofNat ('0'.toNat + d)

/-- Structural worker for `natDigits`; the first argument is fuel,
always at least the number being converted. -/
def natDigitsAux : Nat → Nat → List Nat
  | 0, _ => []
  | fuel + 1, n => if n = 0 then [] else n % 10 :: natDigitsAux fuel (n / 10)

/-- Little-endian decimal digits of a natural number (`natDigits 0 = []`). -/
def natDigits (n : Nat) : List Nat := natDigitsAux n n

theorem natDigitsAux_zero (fuel : Nat) : natDigitsAux fuel 0 = [] := by
  cases fuel <;> simp [natDigitsAux]

theorem natDigitsAux_fuel (fuel₁ : Nat) : ∀ fuel₂ n, n ≤ fuel₁ → n ≤ fuel₂ →
    natDigitsAux fuel₁ n = natDigitsAux fuel₂ n := by
  induction fuel₁ with
  | zero =>
    intro fuel₂ n h₁ _
    rw [Nat.le_zero.mp h₁, natDigitsAux_zero, natDigitsAux_zero]
  | succ f₁ ih =>
    intro fuel₂ n h₁ h₂
    by_cases hn : n = 0
    · rw [hn, natDigitsAux_zero, natDigitsAux_zero]
    · rcases fuel₂ with _ | f₂
      · exact absurd (Nat.le_zero.mp h₂) hn
      rw [natDigitsAux, natDigitsAux, if_neg hn, if_neg hn]
      have hdiv : n / 10 < n := Nat.div_lt_self (Nat.pos_of_ne_zero hn) (by norm_num)
      rw [ih f₂ (n / 10) (by omega) (by omega)]

/-- The defining recurrence of `natDigits`. -/
theorem natDigits_eq (n : Nat) :
    natDigits n = if n = 0 then [] else n % 10 :: natDigits (n / 10) := by
  by_cases hn : n = 0
  · rw [hn]; rfl
  · rcases n with _ | m
    · exact absurd rfl hn
    rw [natDigits, natDigitsAux, if_neg hn, if_neg hn, natDigits]
    have hdiv : (m + 1) / 10 < m + 1 := Nat.div_lt_self (Nat.succ_pos m) (by norm_num)
    rw [natDigitsAux_fuel m ((m + 1) / 10) ((m + 1) / 10) (by omega) (by omega)]

/-- Decimal rendering of a natural number, as Python's `str`. -/
def natToChars (n : Nat) : List Char :=
  if n = 0 then ['0'] else ((natDigits n).map digitChar).reverse

/-- Decimal rendering of an integer, as Python's `str`. -/
def intToChars (n : Int) : List Char :=
  if n < 0 then '-' :: natToChars n.natAbs else natToChars n.natAbs

/-- Left-to-right accumulation of decimal digit characters. -/
def parseNatAux : Nat → List Char → Option Nat
  | acc, [] => some acc
  | acc, c :: cs =>
    match digitVal c with
    | none => none
    | some d => parseNatAux (acc * 10 + d) cs

/-- Value of a nonempty all-digit character list, `none` otherwise. -/
def parseNat : List Char → Option Nat
  | [] => none
  | c :: cs =>
    match digitVal c with
    | none => none
    | some d => parseNatAux d cs

/-- Model of Python `int(s)` on the strings this program feeds it: an
optional `-` or `+` sign followed by one or more decimal digits; any
other shape raises `ValueError`, modelled as `none`. -/
def pyInt (cs : List Char) : Option Int :=
  match cs with
  | [] => none
  | c :: rest =>
    if c = '-' then (parseNat rest).map (fun n => -(n : Int))
    else if c = '+' then (parseNat rest).map (fun n => (n : Int))
    else (parseNat (c :: rest)).map (fun n => (n : Int))

/-! Round-trip facts for the digit codec. -/

theorem digitVal_digitChar (d : Nat) (hd : d < 10) :
    digitVal (digitChar d) = some d := by
  interval_cases d <;> decide

theorem digitChar_range (d : Nat) (hd : d < 10) :
    '0' ≤ digitChar d ∧ digitChar d ≤ '9' := by
  interval_cases d <;> decide

theorem natDigits_lt (n : Nat) : ∀ d ∈ natDigits n, d < 10 := by
  induction n using Nat.strong_induction_on with
  | _ n ih =>
    intro d h
    match n with
    | 0 => rw [natDigits_eq] at h; exact absurd h (by simp)
    | k + 1 =>
      rw [natDigits_eq, if_neg (Nat.succ_ne_zero k)] at h
      rcases List.mem_cons.mp h with h | h
      · subst h; exact Nat.mod_lt _ (by norm_num)
      · exact ih ((k + 1) / 10) (Nat.div_lt_self (Nat.succ_pos k) (by norm_num)) d h

theorem natDigits_ne_nil (n : Nat) (h : 0 < n) : natDigits n ≠ [] := by
  cases n with
  | zero => exact absurd h (by simp)
  | succ k => rw [natDigits_eq, if_neg (Nat.succ_ne_zero k)]; simp

theorem natDigits_foldr (n : Nat) :
    (natDigits n).foldr (fun d a => a * 10 + d) 0 = n := by
  induction n using Nat.strong_induction_on with
  | _ n ih =>
    match n with
    | 0 => rw [natDigits_eq]; rfl
    | k + 1 =>
      rw [natDigits_eq, if_neg (Nat.succ_ne_zero k), List.foldr_cons,
        ih ((k + 1) / 10) (Nat.div_lt_self (Nat.succ_pos k) (by norm_num))]
      omega

theorem parseNatAux_map (ds : List Nat) (hds : ∀ d ∈ ds, d < 10) (acc : Nat) :
    parseNatAux acc (ds.map digitChar) =
      some (ds.foldl (fun a d => a * 10 + d) acc) := by
  induction ds generalizing acc with
  | nil => rfl
  | cons d rest ih =>
    simp only [List.map_cons, parseNatAux, digitVal_digitChar d (hds d (by simp)),
      List.foldl_cons]
    exact ih (fun x hx => hds x (by simp [hx])) (acc * 10 + d)

theorem parseNat_natToChars (n : Nat) : parseNat (natToChars n) = some n := by
  by_cases h : n = 0
  · subst h; decide
  · have hpos : 0 < n := Nat.pos_of_ne_zero h
    have hne := natDigits_ne_nil n hpos
    rw [natToChars, if_neg h, ← List.map_reverse]
    rcases hrev : (natDigits n).reverse with _ | ⟨b, rest⟩
    · exact absurd (List.reverse_eq_nil_iff.mp hrev) hne
    have hmem : ∀ d ∈ b :: rest, d < 10 := by
      intro d hd
      exact natDigits_lt n d (by rw [← List.mem_reverse, hrev]; exact hd)
    have hb : b < 10 := hmem b (by simp)
    simp only [List.map_cons, parseNat, digitVal_digitChar b hb]
    rw [parseNatAux_map rest (fun x hx => hmem x (by simp [hx])) b]
    have : (b :: rest).foldl (fun a d => a * 10 + d) 0 = n := by
      rw [← hrev, List.foldl_reverse]
      simpa using natDigits_foldr n
    simp only [List.foldl_cons] at this
    rw [show (0 * 10 + b) = b by ring] at this
    rw [this]

theorem natToChars_digits (n : Nat) :
    ∀ c ∈ natToChars n, '0' ≤ c ∧ c ≤ '9' := by
  intro c hc
  by_cases h : n = 0
  · subst h
    rw [show natToChars 0 = ['0'] from by decide] at hc
    rw [List.mem_singleton] at hc
    subst hc; decide
  · rw [natToChars, if_neg h, List.mem_reverse] at hc
    rcases List.mem_map.mp hc with ⟨d, hd, rfl⟩
    exact digitChar_range d (natDigits_lt n d hd)

theorem natToChars_ne_nil (n : Nat) : natToChars n ≠ [] := by
  rw [natToChars]
  split
  · simp
  · next h =>
    intro hc
    rw [List.reverse_eq_nil_iff, List.map_eq_nil_iff] at hc
    exact natDigits_ne_nil n (Nat.pos_of_ne_zero h) hc

/-- A decimal digit character is none of the structural characters used
by the wire format, the JSON snapshot format, or a sign. -/
theorem digit_not_special (c : Char) (h : '0' ≤ c ∧ c ≤ '9') :
    c ≠ ',' ∧ c ≠ ':' ∧ c ≠ '-' ∧ c ≠ '+' ∧ c ≠ '"' ∧ c ≠ '\\' ∧
      c ≠ '\x7b' ∧ c ≠ '\x7d' ∧ c ≠ '[' ∧ c ≠ ']' := by
  obtain ⟨h0, h9⟩ := h
  refine ⟨?_, ?_, ?_, ?_, ?_, ?_, ?_, ?_, ?_, ?_⟩ <;>
    · rintro rfl
      first
        | exact absurd h0 (by decide)
        | exact absurd h9 (by decide)

theorem parseNatAux_isSome_of_digits (rest : List Char)
    (hd : ∀ c ∈ rest, '0' ≤ c ∧ c ≤ '9') (acc : Nat) :
    (parseNatAux acc rest).isSome := by
  induction rest generalizing acc with
  | nil => rfl
  | cons e rest' ih =>
    have he := hd e (by simp)
    have hdv : digitVal e = some (e.toNat - '0'.toNat) := by
      rw [digitVal, if_pos he]
    simp only [parseNatAux, hdv]
    exact ih (fun x hx => hd x (by simp [hx])) _

theorem parseNat_isSome_of_digits (cs : List Char)
    (hne : cs ≠ []) (hd : ∀ c ∈ cs, '0' ≤ c ∧ c ≤ '9') :
    (parseNat cs).isSome := by
  rcases cs with _ | ⟨c, rest⟩
  · exact absurd rfl hne
  have hc := hd c (by simp)
  have hdv : digitVal c = some (c.toNat - '0'.toNat) := by
    rw [digitVal, if_pos hc]
  simp only [parseNat, hdv]
  exact parseNatAux_isSome_of_digits rest (fun x hx => hd x (by simp [hx])) _

theorem pyInt_neg_cons (rest : List Char) :
    pyInt ('-' :: rest) = (parseNat rest).map (fun m => -(m : Int)) := rfl

theorem pyInt_digit_cons (c : Char) (rest : List Char)
    (hm : c ≠ '-') (hp : c ≠ '+') :
    pyInt (c :: rest) = (parseNat (c :: rest)).map (fun m => (m : Int)) := by
  rw [pyInt, if_neg hm, if_neg hp]

theorem pyInt_intToChars (n : Int) : pyInt (intToChars n) = some n := by
  by_cases h : n < 0
  · rw [intToChars, if_pos h, pyInt_neg_cons, parseNat_natToChars]
    show some (-(n.natAbs : Int)) = some n
    congr 1
    omega
  · rw [intToChars, if_neg h]
    have hdig := natToChars_digits n.natAbs
    rcases hcs : natToChars n.natAbs with _ | ⟨c, rest⟩
    · exact absurd hcs (natToChars_ne_nil _)
    have hc : '0' ≤ c ∧ c ≤ '9' := by
      apply hdig; rw [hcs]; simp
    obtain ⟨_, _, hm, hp, _⟩ := digit_not_special c hc
    rw [pyInt_digit_cons c rest hm hp, ← hcs, parseNat_natToChars]
    show some ((n.natAbs : Int)) = some n
    congr 1
    omega

/-! ### Python `str.split` with a one-character separator

`"a,b".split(',') == ['a','b']`, `"".split(',') == ['']`; every
occurrence of the separator starts a new (possibly empty) segment.
-/

/-- Accumulator-passing worker for `pySplit`. -/
def splitOnAux (sep : Char) : List Char → List Char → List (List Char)
  | [], acc => [acc.reverse]
  | c :: cs, acc =>
    if c = sep then acc.reverse :: splitOnAux sep cs []
    else splitOnAux sep cs (c :: acc)

/-- Model of Python `s.split(sep)` for a one-character `sep`. -/
def pySplit (s : List Char) (sep : Char) : List (List Char) :=
  splitOnAux sep s []

theorem splitOnAux_no_sep (sep : Char) (s : List Char)
    (h : ∀ c ∈ s, c ≠ sep) (acc : List Char) :
    splitOnAux sep s acc = [acc.reverse ++ s] := by
  induction s generalizing acc with
  | nil => simp [splitOnAux]
  | cons c cs ih =>
    rw [splitOnAux, if_neg (h c (by simp))]
    rw [ih (fun x hx => h x (by simp [hx]))]
    simp

theorem splitOnAux_append (sep : Char) (a b : List Char)
    (h : ∀ c ∈ a, c ≠ sep) (acc : List Char) :
    splitOnAux sep (a ++ sep :: b) acc =
      (acc.reverse ++ a) :: splitOnAux sep b [] := by
  induction a generalizing acc with
  | nil => simp [splitOnAux]
  | cons c cs ih =>
    rw [List.cons_append, splitOnAux, if_neg (h c (by simp))]
    rw [ih (fun x hx => h x (by simp [hx]))]
    simp

theorem pySplit_no_sep (sep : Char) (s : List Char) (h : ∀ c ∈ s, c ≠ sep) :
    pySplit s sep = [s] := by
  rw [pySplit, splitOnAux_no_sep sep s h]; rfl

theorem pySplit_append (sep : Char) (a b : List Char) (h : ∀ c ∈ a, c ≠ sep) :
    pySplit (a ++ sep :: b) sep = a :: pySplit b sep := by
  rw [pySplit, splitOnAux_append sep a b h]; rfl

/-! ### Line protocol codec

`SerialMonitorThread.parse_arduino_data` (`kode.py` 74–92) and
`GasMonitorController.parse_arduino_data` (`gas_monitor_CLI.py`
279–330) run the same algorithm: if the line starts with `"GAS:"`,
split it on `','`, take `parts[i].split(':')[1]` for `i = 0..4`, and
convert fields 0 and 4 with `int(…)`; any `IndexError`/`ValueError`
on the way is caught by the surrounding `try`/`except`, modelled as
`none`. The GUI version returns the record (plus a `datetime.now()`
timestamp, outside the parsing logic and not modelled); the CLI
version stores the same five fields into `current_status`.
-/

/-- The record produced from one well-parsed telemetry line. -/
structure StatusRecord where
  gas : Int
  led : List Char
  buzzer : List Char
  auto : List Char
  threshold : Int
deriving DecidableEq, Repr

/-- `part.split(':')[1]`: the text between the first and second colon;
`none` models the `IndexError` when `part` has no colon. -/
def getAfterColon (part : List Char) : Option (List Char) :=
  (pySplit part ':').get? 1

/-- `data.startswith("GAS:")`. -/
def startsWithGAS (data : List Char) : Bool :=
  List.isPrefixOf ['G', 'A', 'S', ':'] data

/-- The telemetry line parser shared by both controllers. -/
def parse_arduino_data (data : List Char) : Option StatusRecord :=
  if startsWithGAS data then
    do
      let p0 ← (pySplit data ',').get? 0
      let p1 ← (pySplit data ',').get? 1
      let p2 ← (pySplit data ',').get? 2
      let p3 ← (pySplit data ',').get? 3
      let p4 ← (pySplit data ',').get? 4
      let gas ← pyInt (← getAfterColon p0)
      let led ← getAfterColon p1
      let buzzer ← getAfterColon p2
      let auto ← getAfterColon p3
      let threshold ← pyInt (← getAfterColon p4)
      pure ⟨gas, led, buzzer, auto, threshold⟩
  else none

/-- A wire-format telemetry line
`GAS:<gas>,LED:<led>,BUZZER:<buzzer>,AUTO:<auto>,THRESHOLD:<threshold>`
with the two integers printed in decimal. -/
def mkStatusLine (gas : Int) (led buzzer auto : List Char) (threshold : Int) :
    List Char :=
  ['G', 'A', 'S', ':'] ++ intToChars gas ++
    [',', 'L', 'E', 'D', ':'] ++ led ++
    [',', 'B', 'U', 'Z', 'Z', 'E', 'R', ':'] ++ buzzer ++
    [',', 'A', 'U', 'T', 'O', ':'] ++ auto ++
    [',', 'T', 'H', 'R', 'E', 'S', 'H', 'O', 'L', 'D', ':'] ++
    intToChars threshold

/-- The `ON` / `OFF` tokens of the wire format. -/
def ON : List Char := ['O', 'N']

def OFF : List Char := ['O', 'F', 'F']

/-- `parts[i].split(':')[1]` for `parts = data.split(',')`: the raw value
of the `i`-th comma-separated field of the line. -/
def fieldVal (data : List Char) (i : Nat) : Option (List Char) :=
  ((pySplit data ',').get? i).bind getAfterColon

/-- `int(parts[i].split(':')[1])`: the integer value of the `i`-th field. -/
def fieldInt (data : List Char) (i : Nat) : Option Int :=
  (fieldVal data i).bind pyInt

/-- Soundness of the field pipeline: whenever the line starts with
`GAS:` and the five field extractions succeed, the parser succeeds and
returns exactly the extracted values — the field names and the shape of
the `led`/`buzzer`/`auto` values are never examined, fields beyond the
fifth are ignored, and no range check is applied. -/
theorem parse_fields_sound (data : List Char) (g t : Int) (v1 v2 v3 : List Char)
    (hpre : startsWithGAS data = true)
    (h0 : fieldInt data 0 = some g)
    (h1 : fieldVal data 1 = some v1)
    (h2 : fieldVal data 2 = some v2)
    (h3 : fieldVal data 3 = some v3)
    (h4 : fieldInt data 4 = some t) :
    parse_arduino_data data = some ⟨g, v1, v2, v3, t⟩ := by
  rw [fieldInt, fieldVal] at h0 h4
  rw [fieldVal] at h1 h2 h3
  rcases hp0 : (pySplit data ',').get? 0 with _ | p0 <;> rw [hp0] at h0
  · exact Option.noConfusion h0
  rcases hp1 : (pySplit data ',').get? 1 with _ | p1 <;> rw [hp1] at h1
  · exact Option.noConfusion h1
  rcases hp2 : (pySplit data ',').get? 2 with _ | p2 <;> rw [hp2] at h2
  · exact Option.noConfusion h2
  rcases hp3 : (pySplit data ',').get? 3 with _ | p3 <;> rw [hp3] at h3
  · exact Option.noConfusion h3
  rcases hp4 : (pySplit data ',').get? 4 with _ | p4 <;> rw [hp4] at h4
  · exact Option.noConfusion h4
  simp only [Option.some_bind] at h0 h1 h2 h3 h4
  rcases hg0 : getAfterColon p0 with _ | f0 <;> rw [hg0] at h0
  · exact Option.noConfusion h0
  rcases hg4 : getAfterColon p4 with _ | f4 <;> rw [hg4] at h4
  · exact Option.noConfusion h4
  simp only [Option.some_bind] at h0 h4
  rw [parse_arduino_data, if_pos hpre]
  simp only [hp0, hp1, hp2, hp3, hp4, hg0, hg4, h0, h1, h2, h3, h4,
    Option.some_bind, Option.bind_eq_bind, Option.pure_def]

/-- Completeness of the field pipeline: a successful parse forces the
`GAS:` prefix and yields exactly the five extracted field values. -/
theorem parse_fields_complete (data : List Char) (r : StatusRecord)
    (h : parse_arduino_data data = some r) :
    startsWithGAS data = true ∧
      fieldInt data 0 = some r.gas ∧
      fieldVal data 1 = some r.led ∧
      fieldVal data 2 = some r.buzzer ∧
      fieldVal data 3 = some r.auto ∧
      fieldInt data 4 = some r.threshold := by
  rw [parse_arduino_data] at h
  split at h
  case isFalse => exact Option.noConfusion h
  case isTrue hpre =>
    refine ⟨hpre, ?_⟩
    rcases hp0 : (pySplit data ',').get? 0 with _ | p0 <;> rw [hp0] at h
    · exact Option.noConfusion h
    rcases hp1 : (pySplit data ',').get? 1 with _ | p1 <;> rw [hp1] at h
    · exact Option.noConfusion h
    rcases hp2 : (pySplit data ',').get? 2 with _ | p2 <;> rw [hp2] at h
    · exact Option.noConfusion h
    rcases hp3 : (pySplit data ',').get? 3 with _ | p3 <;> rw [hp3] at h
    · exact Option.noConfusion h
    rcases hp4 : (pySplit data ',').get? 4 with _ | p4 <;> rw [hp4] at h
    · exact Option.noConfusion h
    simp only [Option.bind_eq_bind, Option.some_bind] at h
    rcases hg0 : getAfterColon p0 with _ | f0 <;>
      simp only [hg0, Option.some_bind, Option.none_bind] at h
    · exact Option.noConfusion h
    rcases hi0 : pyInt f0 with _ | g <;>
      simp only [hi0, Option.some_bind, Option.none_bind] at h
    · exact Option.noConfusion h
    rcases hg1 : getAfterColon p1 with _ | f1 <;>
      simp only [hg1, Option.some_bind, Option.none_bind] at h
    · exact Option.noConfusion h
    rcases hg2 : getAfterColon p2 with _ | f2 <;>
      simp only [hg2, Option.some_bind, Option.none_bind] at h
    · exact Option.noConfusion h
    rcases hg3 : getAfterColon p3 with _ | f3 <;>
      simp only [hg3, Option.some_bind, Option.none_bind] at h
    · exact Option.noConfusion h
    rcases hg4 : getAfterColon p4 with _ | f4 <;>
      simp only [hg4, Option.some_bind, Option.none_bind] at h
    · exact Option.noConfusion h
    rcases hi4 : pyInt f4 with _ | t <;>
      simp only [hi4, Option.some_bind, Option.none_bind, Option.pure_def] at h
    · exact Option.noConfusion h
    cases h
    simp only [fieldInt, fieldVal, hp0, hp1, hp2, hp3, hp4,
      Option.some_bind, hg0, hg1, hg2, hg3, hg4, hi0, hi4]
    exact ⟨trivial, trivial, trivial, trivial, trivial⟩

/-! Facts about splitting a well-formed wire line. -/

theorem intToChars_not_special (n : Int) :
    ∀ c ∈ intToChars n, c ≠ ',' ∧ c ≠ ':' := by
  intro c hc
  rw [intToChars] at hc
  split at hc
  · rcases List.mem_cons.mp hc with rfl | hc
    · exact ⟨by decide, by decide⟩
    · have h2 := digit_not_special c (natToChars_digits _ c hc)
      exact ⟨h2.1, h2.2.1⟩
  · have h2 := digit_not_special c (natToChars_digits _ c hc)
    exact ⟨h2.1, h2.2.1⟩

theorem mem_append_ne (a b : List Char) (x : Char)
    (ha : ∀ c ∈ a, c ≠ x) (hb : ∀ c ∈ b, c ≠ x) :
    ∀ c ∈ a ++ b, c ≠ x := by
  intro c hc
  rcases List.mem_append.mp hc with h | h
  · exact ha c h
  · exact hb c h

theorem getAfterColon_pre (pre body : List Char)
    (hpre : ∀ c ∈ pre, c ≠ ':') (hbody : ∀ c ∈ body, c ≠ ':') :
    getAfterColon (pre ++ ':' :: body) = some body := by
  rw [getAfterColon, pySplit_append ':' pre (body) hpre,
    pySplit_no_sep ':' body hbody]
  rfl

theorem pySplit_mkStatusLine (gas threshold : Int) (led buzzer auto : List Char)
    (hled : ∀ c ∈ led, c ≠ ',') (hbuz : ∀ c ∈ buzzer, c ≠ ',')
    (haut : ∀ c ∈ auto, c ≠ ',') :
    pySplit (mkStatusLine gas led buzzer auto threshold) ',' =
      [['G', 'A', 'S', ':'] ++ intToChars gas,
       ['L', 'E', 'D', ':'] ++ led,
       ['B', 'U', 'Z', 'Z', 'E', 'R', ':'] ++ buzzer,
       ['A', 'U', 'T', 'O', ':'] ++ auto,
       ['T', 'H', 'R', 'E', 'S', 'H', 'O', 'L', 'D', ':'] ++
         intToChars threshold] := by
  have hdata : mkStatusLine gas led buzzer auto threshold =
      (['G', 'A', 'S', ':'] ++ intToChars gas) ++
        ',' :: ((['L', 'E', 'D', ':'] ++ led) ++
          ',' :: ((['B', 'U', 'Z', 'Z', 'E', 'R', ':'] ++ buzzer) ++
            ',' :: ((['A', 'U', 'T', 'O', ':'] ++ auto) ++
              ',' :: (['T', 'H', 'R', 'E', 'S', 'H', 'O', 'L', 'D', ':'] ++
                intToChars threshold)))) := by
    simp [mkStatusLine]
  have hg : ∀ c ∈ intToChars gas, c ≠ ',' :=
    fun c hc => (intToChars_not_special gas c hc).1
  have ht : ∀ c ∈ intToChars threshold, c ≠ ',' :=
    fun c hc => (intToChars_not_special threshold c hc).1
  rw [hdata,
    pySplit_append ',' _ _ (mem_append_ne _ _ _ (by decide) hg),
    pySplit_append ',' _ _ (mem_append_ne _ _ _ (by decide) hled),
    pySplit_append ',' _ _ (mem_append_ne _ _ _ (by decide) hbuz),
    pySplit_append ',' _ _ (mem_append_ne _ _ _ (by decide) haut),
    pySplit_no_sep ',' _ (mem_append_ne _ _ _ (by decide) ht)]

theorem fieldVal_mkStatusLine (gas threshold : Int) (led buzzer auto : List Char)
    (hled : ∀ c ∈ led, c ≠ ',' ∧ c ≠ ':')
    (hbuz : ∀ c ∈ buzzer, c ≠ ',' ∧ c ≠ ':')
    (haut : ∀ c ∈ auto, c ≠ ',' ∧ c ≠ ':') :
    fieldInt (mkStatusLine gas led buzzer auto threshold) 0 = some gas ∧
      fieldVal (mkStatusLine gas led buzzer auto threshold) 1 = some led ∧
      fieldVal (mkStatusLine gas led buzzer auto threshold) 2 = some buzzer ∧
      fieldVal (mkStatusLine gas led buzzer auto threshold) 3 = some auto ∧
      fieldInt (mkStatusLine gas led buzzer auto threshold) 4 = some threshold := by
  have hsplit := pySplit_mkStatusLine gas threshold led buzzer auto
    (fun c hc => (hled c hc).1) (fun c hc => (hbuz c hc).1)
    (fun c hc => (haut c hc).1)
  have hgcol : ∀ c ∈ intToChars gas, c ≠ ':' :=
    fun c hc => (intToChars_not_special gas c hc).2
  have htcol : ∀ c ∈ intToChars threshold, c ≠ ':' :=
    fun c hc => (intToChars_not_special threshold c hc).2
  have hga0 : getAfterColon ('G' :: 'A' :: 'S' :: ':' :: intToChars gas) =
      some (intToChars gas) :=
    getAfterColon_pre ['G', 'A', 'S'] (intToChars gas) (by decide) hgcol
  have hga1 : getAfterColon ('L' :: 'E' :: 'D' :: ':' :: led) = some led :=
    getAfterColon_pre ['L', 'E', 'D'] led (by decide)
      (fun c hc => (hled c hc).2)
  have hga2 : getAfterColon
      ('B' :: 'U' :: 'Z' :: 'Z' :: 'E' :: 'R' :: ':' :: buzzer) =
      some buzzer :=
    getAfterColon_pre ['B', 'U', 'Z', 'Z', 'E', 'R'] buzzer (by decide)
      (fun c hc => (hbuz c hc).2)
  have hga3 : getAfterColon ('A' :: 'U' :: 'T' :: 'O' :: ':' :: auto) =
      some auto :=
    getAfterColon_pre ['A', 'U', 'T', 'O'] auto (by decide)
      (fun c hc => (haut c hc).2)
  have hga4 : getAfterColon
      ('T' :: 'H' :: 'R' :: 'E' :: 'S' :: 'H' :: 'O' :: 'L' :: 'D' :: ':' ::
        intToChars threshold) = some (intToChars threshold) :=
    getAfterColon_pre ['T', 'H', 'R', 'E', 'S', 'H', 'O', 'L', 'D']
      (intToChars threshold) (by decide) htcol
  refine ⟨?_, ?_, ?_, ?_, ?_⟩ <;>
    simp [fieldInt, fieldVal, hsplit, hga0, hga1, hga2, hga3, hga4,
      pyInt_intToChars]

theorem startsWithGAS_mkStatusLine
    (gas threshold : Int) (led buzzer auto : List Char) :
    startsWithGAS (mkStatusLine gas led buzzer auto threshold) = true := by
  rw [mkStatusLine, startsWithGAS]
  simp only [List.cons_append, List.nil_append]
  rw [List.isPrefixOf_iff_prefix]
  refine ⟨_, rfl⟩

/-! ### Delta filter and the serial read loop

`SerialMonitorThread.should_log_data` (`kode.py` 66–72) and the inline
condition of `GasMonitorController.add_log_entry`
(`gas_monitor_CLI.py` 223) gate a reading on
`last is None or abs(current - last) >= 10`.

`SerialMonitorThread.run` (`kode.py` 45–64) reads lines, parses each
one, and emits the parsed record when the filter accepts it, updating
`last_gas_value`; a line on which `parse_arduino_data` returns `None`
leaves the thread state untouched and the loop moves to the next line
(the parser catches its own exceptions, so the `except`/`break` arm of
`run` is never taken for a malformed line).
-/

/-- The delta filter: accept when there is no previous reading or the
absolute change is at least 10. -/
def should_log_data (last_gas_value : Option Int) (current_gas : Int) : Bool :=
  match last_gas_value with
  | none => true
  | some prev => decide (10 ≤ (current_gas - prev).natAbs)

/-- State of the serial monitor thread: the last accepted gas value and
the records emitted so far. -/
structure ThreadState where
  last_gas_value : Option Int
  emitted : List StatusRecord
deriving DecidableEq, Repr

/-- One iteration of the `run` loop on one incoming line. -/
def runStep (st : ThreadState) (line : List Char) : ThreadState :=
  match parse_arduino_data line with
  | none => st
  | some r =>
    if should_log_data st.last_gas_value r.gas then
      ⟨some r.gas, st.emitted ++ [r]⟩
    else st

/-- The read loop over a finite schedule of incoming lines. -/
def runLoop (st : ThreadState) (lines : List (List Char)) : ThreadState :=
  lines.foldl runStep st

theorem runStep_none (st : ThreadState) (line : List Char)
    (h : parse_arduino_data line = none) : runStep st line = st := by
  rw [runStep, h]

/-! ### Claim theorems: line protocol codec and delta filter -/

/-- C1: for every input line matching the wire format
`GAS:<int>,LED:<ON|OFF>,BUZZER:<ON|OFF>,AUTO:<ON|OFF>,THRESHOLD:<int>`,
`parse_arduino_data` returns a status record whose `gas`, `led`,
`buzzer`, `auto` and `threshold` fields equal the literal values
written in the line: the two integers as decimal integers, the other
three as the `ON`/`OFF` tokens. -/
theorem C1_parse_wire_format (gas threshold : Int) (led buzzer auto : List Char)
    (hled : led = ON ∨ led = OFF) (hbuzzer : buzzer = ON ∨ buzzer = OFF)
    (hauto : auto = ON ∨ auto = OFF) :
    parse_arduino_data (mkStatusLine gas led buzzer auto threshold) =
      some ⟨gas, led, buzzer, auto, threshold⟩ := by
  have hled' : ∀ c ∈ led, c ≠ ',' ∧ c ≠ ':' := by
    rcases hled with rfl | rfl <;> decide
  have hbuz' : ∀ c ∈ buzzer, c ≠ ',' ∧ c ≠ ':' := by
    rcases hbuzzer with rfl | rfl <;> decide
  have haut' : ∀ c ∈ auto, c ≠ ',' ∧ c ≠ ':' := by
    rcases hauto with rfl | rfl <;> decide
  obtain ⟨h0, h1, h2, h3, h4⟩ :=
    fieldVal_mkStatusLine gas threshold led buzzer auto hled' hbuz' haut'
  exact parse_fields_sound _ _ _ _ _ _
    (startsWithGAS_mkStatusLine gas threshold led buzzer auto) h0 h1 h2 h3 h4

/-- Witness for C1 at the spec's example line
`GAS:523,LED:ON,BUZZER:OFF,AUTO:ON,THRESHOLD:400`. -/
theorem C1_parse_wire_format_witness :
    mkStatusLine 523 ON OFF ON 400 =
        "GAS:523,LED:ON,BUZZER:OFF,AUTO:ON,THRESHOLD:400".toList ∧
      parse_arduino_data "GAS:523,LED:ON,BUZZER:OFF,AUTO:ON,THRESHOLD:400".toList =
        some ⟨523, ON, OFF, ON, 400⟩ :=
  ⟨by decide, by
    rw [show ("GAS:523,LED:ON,BUZZER:OFF,AUTO:ON,THRESHOLD:400".toList) =
      mkStatusLine 523 ON OFF ON 400 from by decide]
    exact C1_parse_wire_format 523 400 ON OFF ON
      (Or.inl rfl) (Or.inr rfl) (Or.inl rfl)⟩

/-- C2: the delta filter accepts a reading iff there is no previous
reading or the absolute difference from the previous reading is at
least 10; in particular `accept(none, x)` always holds,
`accept(100, 109)` fails, and `accept(100, 110)` and `accept(100, 90)`
hold. -/
theorem C2_delta_filter :
    (∀ c : Int, should_log_data none c = true) ∧
      (∀ p c : Int,
        should_log_data (some p) c = true ↔ (10 : Int) ≤ |c - p|) ∧
      should_log_data (some 100) 109 = false ∧
      should_log_data (some 100) 110 = true ∧
      should_log_data (some 100) 90 = true := by
  refine ⟨fun c => rfl, fun p c => ?_, by decide, by decide, by decide⟩
  rw [should_log_data, decide_eq_true_eq, Int.abs_eq_natAbs]
  omega

/-- Counterexample to C3 as stated: a line with six comma-separated
fields has the wrong field count for the five-field wire format, yet
the parser accepts it instead of returning a parse error. -/
theorem C3_counterexample :
    (pySplit "GAS:1,LED:ON,BUZZER:OFF,AUTO:ON,THRESHOLD:2,JUNK:3".toList
        ',').length = 6 ∧
      parse_arduino_data
          "GAS:1,LED:ON,BUZZER:OFF,AUTO:ON,THRESHOLD:2,JUNK:3".toList =
        some ⟨1, ON, OFF, ON, 2⟩ := by
  constructor <;> decide

/-- C3 (amended): a line without the `GAS:` prefix, with fewer than
five comma-separated fields, whose first or fifth field has no integer
after its colon, or whose second, third or fourth field has no colon at
all, makes `parse_arduino_data` return `none` — the modelled
`ParseError` — and the read loop drops such a line and continues with
the remaining lines unchanged.  (Lines with more than five fields are
accepted, so "wrong field count" holds only in the too-few direction.) -/
theorem C3_malformed_lines_rejected_loop_continues :
    (∀ data : List Char, startsWithGAS data = false →
        parse_arduino_data data = none) ∧
      (∀ data : List Char, (pySplit data ',').length < 5 →
        parse_arduino_data data = none) ∧
      (∀ data : List Char, fieldInt data 0 = none →
        parse_arduino_data data = none) ∧
      (∀ data : List Char, fieldVal data 1 = none →
        parse_arduino_data data = none) ∧
      (∀ data : List Char, fieldVal data 2 = none →
        parse_arduino_data data = none) ∧
      (∀ data : List Char, fieldVal data 3 = none →
        parse_arduino_data data = none) ∧
      (∀ data : List Char, fieldInt data 4 = none →
        parse_arduino_data data = none) ∧
      (∀ (st : ThreadState) (pre post : List (List Char)) (line : List Char),
        parse_arduino_data line = none →
        runLoop st (pre ++ line :: post) = runLoop st (pre ++ post)) := by
  have hnone : ∀ (data : List Char),
      (∀ r : StatusRecord, parse_arduino_data data ≠ some r) →
      parse_arduino_data data = none := by
    intro data h
    rcases hp : parse_arduino_data data with _ | r
    · rfl
    · exact absurd hp (h r)
  refine ⟨?_, ?_, ?_, ?_, ?_, ?_, ?_, ?_⟩
  · intro data h
    rw [parse_arduino_data, if_neg]
    rw [h]
    exact Bool.false_ne_true
  · intro data h
    apply hnone
    intro r hp
    obtain ⟨-, -, -, -, -, h4⟩ := parse_fields_complete data r hp
    rw [fieldInt, fieldVal, List.get?_eq_none.mpr (by omega)] at h4
    exact Option.noConfusion h4
  · intro data h
    apply hnone
    intro r hp
    obtain ⟨-, h0, -⟩ := parse_fields_complete data r hp
    rw [h] at h0
    exact Option.noConfusion h0
  · intro data h
    apply hnone
    intro r hp
    obtain ⟨-, -, h1, -⟩ := parse_fields_complete data r hp
    rw [h] at h1
    exact Option.noConfusion h1
  · intro data h
    apply hnone
    intro r hp
    obtain ⟨-, -, -, h2, -⟩ := parse_fields_complete data r hp
    rw [h] at h2
    exact Option.noConfusion h2
  · intro data h
    apply hnone
    intro r hp
    obtain ⟨-, -, -, -, h3, -⟩ := parse_fields_complete data r hp
    rw [h] at h3
    exact Option.noConfusion h3
  · intro data h
    apply hnone
    intro r hp
    obtain ⟨-, -, -, -, -, h4⟩ := parse_fields_complete data r hp
    rw [h] at h4
    exact Option.noConfusion h4
  · intro st pre post line h
    rw [runLoop, runLoop, List.foldl_append, List.foldl_append,
      List.foldl_cons, runStep_none _ _ h]

/-- Witness for C3 (amended): each malformed family at a concrete
line, and the read loop continuing past a malformed line. -/
theorem C3_malformed_witness :
    parse_arduino_data "NOTGAS:1".toList = none ∧
      parse_arduino_data "GAS:100,LED:ON".toList = none ∧
      parse_arduino_data
        "GAS:abc,LED:ON,BUZZER:OFF,AUTO:ON,THRESHOLD:400".toList = none ∧
      parse_arduino_data
        "GAS:1,LEDON,BUZZER:OFF,AUTO:ON,THRESHOLD:2".toList = none ∧
      runLoop ⟨none, []⟩
          ["NOTGAS:1".toList,
           "GAS:523,LED:ON,BUZZER:OFF,AUTO:ON,THRESHOLD:400".toList] =
        runLoop ⟨none, []⟩
          ["GAS:523,LED:ON,BUZZER:OFF,AUTO:ON,THRESHOLD:400".toList] :=
  ⟨C3_malformed_lines_rejected_loop_continues.1 _ (by decide),
   C3_malformed_lines_rejected_loop_continues.2.1 _ (by decide),
   C3_malformed_lines_rejected_loop_continues.2.2.1 _ (by decide),
   C3_malformed_lines_rejected_loop_continues.2.2.2.1 _ (by decide),
   C3_malformed_lines_rejected_loop_continues.2.2.2.2.2.2.2
     ⟨none, []⟩ [] _ _ (by decide)⟩

/-- Counterexample to C10 as stated: `GAS:1,X,Y,Z,THRESHOLD:2` begins
with `GAS:`, splits into five comma fields, and its first and fifth
fields carry parseable integers after a colon, yet the parser rejects
it because the middle fields have no colon. -/
theorem C10_counterexample :
    startsWithGAS "GAS:1,X,Y,Z,THRESHOLD:2".toList = true ∧
      (pySplit "GAS:1,X,Y,Z,THRESHOLD:2".toList ',').length = 5 ∧
      fieldInt "GAS:1,X,Y,Z,THRESHOLD:2".toList 0 = some 1 ∧
      fieldInt "GAS:1,X,Y,Z,THRESHOLD:2".toList 4 = some 2 ∧
      parse_arduino_data "GAS:1,X,Y,Z,THRESHOLD:2".toList = none := by
  refine ⟨by decide, by decide, by decide, by decide, by decide⟩

/-- C10 (amended): the parser accepts far more than the wire format:
any line starting with `GAS:` whose first and fifth comma fields carry
a parseable integer after a colon and whose second to fourth fields
each contain at least one colon parses successfully; the field names
are never checked, the `led`/`buzzer`/`auto` values are taken verbatim
(not restricted to `ON`/`OFF`), fields beyond the fifth are ignored,
and no range check (gas 0–1023, threshold 1–1023) is applied. -/
theorem C10_parser_liberality (data : List Char) (g t : Int)
    (v1 v2 v3 : List Char)
    (hpre : startsWithGAS data = true)
    (h0 : fieldInt data 0 = some g)
    (h1 : fieldVal data 1 = some v1)
    (h2 : fieldVal data 2 = some v2)
    (h3 : fieldVal data 3 = some v3)
    (h4 : fieldInt data 4 = some t) :
    parse_arduino_data data = some ⟨g, v1, v2, v3, t⟩ :=
  parse_fields_sound data g t v1 v2 v3 hpre h0 h1 h2 h3 h4

/-- Witness for C10 at a line with wrong field names, non-`ON`/`OFF`
values (including an empty one and one containing a second colon), a
negative gas value, an out-of-range threshold, and a trailing sixth
field. -/
theorem C10_parser_liberality_witness :
    parse_arduino_data
        "GAS:-7,FOO:XYZ,BAR:1:2,BAZ:,QUX:99999,EXTRA".toList =
      some ⟨-7, ['X', 'Y', 'Z'], ['1'], [], 99999⟩ :=
  C10_parser_liberality _ (-7) 99999 _ _ _
    (by decide) (by decide) (by decide) (by decide) (by decide) (by decide)

/-! ### Threshold command encoding

`GasMonitorController.set_threshold` (`gas_monitor_CLI.py` 520–542)
validates the requested value against 1–1023 and only then sends
`THRESHOLD_<t>`; out-of-range values are rejected with an error message
and no write happens.  `GasMonitorGUI.set_threshold_popup` (`kode.py`
1229–1242) instead obtains the value from `QInputDialog.getInt` with
dialog bounds `min=0, max=1023` (so the dialog itself permits 0) and
sends `THRESHOLD_<value>` for any confirmed value without further
validation.  The returned `Option` is the command written to the
device, `none` when no write occurs.
-/

/-- CLI threshold setting: range-check 1–1023, then encode. -/
def set_threshold (new_threshold : Int) : Option (List Char) :=
  if 1 ≤ new_threshold ∧ new_threshold ≤ 1023 then
    some (['T', 'H', 'R', 'E', 'S', 'H', 'O', 'L', 'D', '_'] ++
      intToChars new_threshold)
  else none

/-- GUI threshold popup: `value` is what the dialog returned (the
dialog widget itself constrains it to 0–1023), `ok` whether the user
confirmed; any confirmed value is encoded and sent unchecked. -/
def set_threshold_popup (value : Int) (ok : Bool) : Option (List Char) :=
  if ok then
    some (['T', 'H', 'R', 'E', 'S', 'H', 'O', 'L', 'D', '_'] ++
      intToChars value)
  else none

/-! ### Claim theorems: threshold command -/

/-- Counterexample to C4 as stated: in the GUI variant a requested
threshold of 0 — outside the claimed 1–1023 range — is not rejected: a
confirmed popup at 0 produces a device write of `THRESHOLD_0`. -/
theorem C4_counterexample :
    set_threshold_popup 0 true = some "THRESHOLD_0".toList := by decide

/-- C4 (amended): the CLI encodes and sends `THRESHOLD_<t>` iff
`1 ≤ t ≤ 1023` (so 0 and 1024 are rejected with no device write, and
1023 yields exactly `THRESHOLD_1023`), while the GUI popup sends
`THRESHOLD_<v>` for every value `v` the dialog confirms — the dialog
bounds are 0–1023, so a threshold of 0 is sent without validation. -/
theorem C4_threshold_range (t : Int) :
    ((set_threshold t).isSome ↔ 1 ≤ t ∧ t ≤ 1023) ∧
      set_threshold 0 = none ∧
      set_threshold 1024 = none ∧
      set_threshold 1023 = some "THRESHOLD_1023".toList ∧
      (∀ v : Int, set_threshold_popup v true =
        some (['T', 'H', 'R', 'E', 'S', 'H', 'O', 'L', 'D', '_'] ++
          intToChars v)) := by
  refine ⟨?_, by decide, by decide, by decide, fun v => rfl⟩
  rw [set_threshold]
  by_cases h : 1 ≤ t ∧ t ≤ 1023
  · rw [if_pos h]; simpa using h
  · rw [if_neg h]; simpa using h

/-! ### Timestamps

The store's timestamps are the strings produced by
`datetime.now().strftime('%Y-%m-%d %H:%M:%S')` and are read back with
`datetime.strptime(s, '%Y-%m-%d %H:%M:%S')`.  `strptime` is modelled
after CPython's `_strptime` regex table: `%Y` is exactly four digits,
`%m` is `1[0-2]|0[1-9]|[1-9]`, `%d` is `3[01]|[12]\d|0[1-9]|[1-9]`,
`%H` is `2[0-3]|[0-1]\d|\d`, `%M`/`%S` are `[0-5]\d|\d` (alternatives
tried in order, no backtracking across the following literal), the
whole string must be consumed, and the `datetime` constructor then
requires `1 <= year` and `day <= days in month`.  Comparison of
`datetime` values is modelled through their epoch projection
(`daysFromCivil`, the standard days-from-civil algorithm), which
orders valid date-times exactly as Python's field-lexicographic
`datetime` comparison does, and makes `timedelta` arithmetic exact.
-/

/-- A parsed `datetime` value (what `strptime` returns). -/
structure DateTime where
  year : Nat
  month : Nat
  day : Nat
  hour : Nat
  minute : Nat
  second : Nat
deriving DecidableEq, Repr

/-- A `date()` value (what `QDate.toPyDate` produces). -/
structure Date where
  year : Nat
  month : Nat
  day : Nat
deriving DecidableEq, Repr

/-- `datetime.date()`. -/
def DateTime.date (t : DateTime) : Date := ⟨t.year, t.month, t.day⟩

/-- Days since 1970-01-01 of a civil date (Gregorian, proleptic). -/
def daysFromCivil (y m d : Int) : Int :=
  let y2 : Int := if m ≤ 2 then y - 1 else y
  let era : Int := y2 / 400
  let yoe : Int := y2 - era * 400
  let mp : Int := (m + 9) % 12
  let doy : Int := (153 * mp + 2) / 5 + d - 1
  let doe : Int := yoe * 365 + yoe / 4 - yoe / 100 + doy
  era * 146097 + doe - 719468

/-- Seconds since the epoch of a `DateTime` (valid for `year ≥ 1`). -/
def dtToEpochSecs (t : DateTime) : Int :=
  daysFromCivil t.year t.month t.day * 86400 +
    t.hour * 3600 + t.minute * 60 + t.second

/-- Days since the epoch of a `Date`. -/
def dateToEpochDays (d : Date) : Int := daysFromCivil d.year d.month d.day

/-- Gregorian leap year. -/
def isLeap (y : Nat) : Bool := y % 4 == 0 && (y % 100 != 0 || y % 400 == 0)

/-- Length of a month, as enforced by the `datetime` constructor. -/
def daysInMonth (y m : Nat) : Nat :=
  if m = 2 then (if isLeap y then 29 else 28)
  else if m = 4 ∨ m = 6 ∨ m = 9 ∨ m = 11 then 30
  else 31

/-- Exactly four decimal digits (`%Y`). -/
def parse4Digits : List Char → Option (Nat × List Char)
  | c1 :: c2 :: c3 :: c4 :: rest => do
    let d1 ← digitVal c1
    let d2 ← digitVal c2
    let d3 ← digitVal c3
    let d4 ← digitVal c4
    pure (((d1 * 10 + d2) * 10 + d3) * 10 + d4, rest)
  | _ => none

/-- `%m`: `1[0-2]|0[1-9]|[1-9]`, alternatives in order. -/
def parseMonth : List Char → Option (Nat × List Char)
  | [] => none
  | c1 :: rest =>
    match rest with
    | c2 :: rest2 =>
      if c1 = '1' ∧ '0' ≤ c2 ∧ c2 ≤ '2' then
        some (10 + (c2.toNat - '0'.toNat), rest2)
      else if c1 = '0' ∧ '1' ≤ c2 ∧ c2 ≤ '9' then
        some (c2.toNat - '0'.toNat, rest2)
      else if '1' ≤ c1 ∧ c1 ≤ '9' then
        some (c1.toNat - '0'.toNat, rest)
      else none
    | [] =>
      if '1' ≤ c1 ∧ c1 ≤ '9' then some (c1.toNat - '0'.toNat, []) else none

/-- `%d`: `3[01]|[12]\d|0[1-9]|[1-9]`, alternatives in order. -/
def parseDay : List Char → Option (Nat × List Char)
  | [] => none
  | c1 :: rest =>
    match rest with
    | c2 :: rest2 =>
      if c1 = '3' ∧ '0' ≤ c2 ∧ c2 ≤ '1' then
        some (30 + (c2.toNat - '0'.toNat), rest2)
      else if ('1' ≤ c1 ∧ c1 ≤ '2') ∧ '0' ≤ c2 ∧ c2 ≤ '9' then
        some ((c1.toNat - '0'.toNat) * 10 + (c2.toNat - '0'.toNat), rest2)
      else if c1 = '0' ∧ '1' ≤ c2 ∧ c2 ≤ '9' then
        some (c2.toNat - '0'.toNat, rest2)
      else if '1' ≤ c1 ∧ c1 ≤ '9' then
        some (c1.toNat - '0'.toNat, rest)
      else none
    | [] =>
      if '1' ≤ c1 ∧ c1 ≤ '9' then some (c1.toNat - '0'.toNat, []) else none

/-- `%H`: `2[0-3]|[0-1]\d|\d`, alternatives in order. -/
def parseHour : List Char → Option (Nat × List Char)
  | [] => none
  | c1 :: rest =>
    match rest with
    | c2 :: rest2 =>
      if c1 = '2' ∧ '0' ≤ c2 ∧ c2 ≤ '3' then
        some (20 + (c2.toNat - '0'.toNat), rest2)
      else if ('0' ≤ c1 ∧ c1 ≤ '1') ∧ '0' ≤ c2 ∧ c2 ≤ '9' then
        some ((c1.toNat - '0'.toNat) * 10 + (c2.toNat - '0'.toNat), rest2)
      else if '0' ≤ c1 ∧ c1 ≤ '9' then
        some (c1.toNat - '0'.toNat, rest)
      else none
    | [] =>
      if '0' ≤ c1 ∧ c1 ≤ '9' then some (c1.toNat - '0'.toNat, []) else none

/-- `%M` and `%S`: `[0-5]\d|\d`, alternatives in order. -/
def parseMinSec : List Char → Option (Nat × List Char)
  | [] => none
  | c1 :: rest =>
    match rest with
    | c2 :: rest2 =>
      if ('0' ≤ c1 ∧ c1 ≤ '5') ∧ '0' ≤ c2 ∧ c2 ≤ '9' then
        some ((c1.toNat - '0'.toNat) * 10 + (c2.toNat - '0'.toNat), rest2)
      else if '0' ≤ c1 ∧ c1 ≤ '9' then
        some (c1.toNat - '0'.toNat, rest)
      else none
    | [] =>
      if '0' ≤ c1 ∧ c1 ≤ '9' then some (c1.toNat - '0'.toNat, []) else none

/-- Consume one expected literal character. -/
def expectChar (c : Char) : List Char → Option (List Char)
  | x :: rest => if x = c then some rest else none
  | [] => none

/-- `datetime.strptime(s, '%Y-%m-%d %H:%M:%S')`, `none` on `ValueError`. -/
def strptimeDateTime (cs : List Char) : Option DateTime := do
  let (y, r1) ← parse4Digits cs
  let r2 ← expectChar '-' r1
  let (mo, r3) ← parseMonth r2
  let r4 ← expectChar '-' r3
  let (d, r5) ← parseDay r4
  let r6 ← expectChar ' ' r5
  let (h, r7) ← parseHour r6
  let r8 ← expectChar ':' r7
  let (mi, r9) ← parseMinSec r8
  let r10 ← expectChar ':' r9
  let (sec, r11) ← parseMinSec r10
  if r11 = [] ∧ 1 ≤ y ∧ d ≤ daysInMonth y mo then
    some ⟨y, mo, d, h, mi, sec⟩
  else none

/-- `datetime.strptime(s, '%Y-%m-%d')`, `none` on `ValueError`. -/
def strptimeDate (cs : List Char) : Option Date := do
  let (y, r1) ← parse4Digits cs
  let r2 ← expectChar '-' r1
  let (mo, r3) ← parseMonth r2
  let r4 ← expectChar '-' r3
  let (d, r5) ← parseDay r4
  if r5 = [] ∧ 1 ≤ y ∧ d ≤ daysInMonth y mo then
    some ⟨y, mo, d⟩
  else none

/-- Two-digit zero padding (`%m`, `%d`, `%H`, `%M`, `%S`). -/
def pad2 (n : Nat) : List Char :=
  if n < 10 then '0' :: natToChars n else natToChars n

/-- Four-digit zero padding (`%Y`). -/
def pad4 (n : Nat) : List Char :=
  List.replicate (4 - (natToChars n).length) '0' ++ natToChars n

/-- `t.strftime('%Y-%m-%d %H:%M:%S')`. -/
def strftimeDateTime (t : DateTime) : List Char :=
  pad4 t.year ++ ['-'] ++ pad2 t.month ++ ['-'] ++ pad2 t.day ++ [' '] ++
    pad2 t.hour ++ [':'] ++ pad2 t.minute ++ [':'] ++ pad2 t.second

/-- `d.strftime('%Y-%m-%d')`. -/
def strftimeDate (d : Date) : List Char :=
  pad4 d.year ++ ['-'] ++ pad2 d.month ++ ['-'] ++ pad2 d.day

/-! ### Retention store: pruning and date-based selection

`GasMonitorController.cleanup_old_logs` (`gas_monitor_CLI.py` 75–108):
`cutoff_date = now - timedelta(days=30)`; the loop keeps an entry iff
its timestamp parses with `strptime('%Y-%m-%d %H:%M:%S')` and the
parsed value is `>= cutoff_date`; an entry whose timestamp fails to
parse is skipped (dropped) by the `except (ValueError, KeyError)` arm.
`deleted_count` is the difference of lengths.  The `datetime`
comparison and the `timedelta` subtraction are modelled on the epoch
projection `dtToEpochSecs`, under which `t >= now - timedelta(30)` is
`dtToEpochSecs now - 30*86400 <= dtToEpochSecs t`.

`GasMonitorController.show_logs_by_date` (434–459): validates the
requested date with `strptime('%Y-%m-%d')`, then selects entries with
`log['timestamp'].startswith(date_str)` — a string-prefix test.

`GasMonitorGUI.apply_log_filter` (`kode.py` 1107–1129): keeps entries
whose timestamp parses and whose parsed `date()` lies in
`[from_date, to_date]` and whose gas value lies in
`[min_gas, max_gas]`; entries raising in the `try` are skipped.
-/

/-- A CLI store entry: `{'timestamp': ..., 'gas_value': ...}`. -/
structure LogEntry where
  timestamp : List Char
  gas_value : Int
deriving DecidableEq, Repr

/-- A GUI store entry (six keys, `kode.py` `handle_serial_data`). -/
structure GuiLogEntry where
  timestamp : List Char
  gas : Int
  led : List Char
  buzzer : List Char
  auto : List Char
  threshold : Int
deriving DecidableEq, Repr

/-- The keep-condition of the pruning loop: timestamp parses and is on
or after the cutoff (given in epoch seconds). -/
def keepRecent (cutoff : Int) (e : LogEntry) : Bool :=
  match strptimeDateTime e.timestamp with
  | some t => decide (cutoff ≤ dtToEpochSecs t)
  | none => false

/-- The `valid_logs` accumulation loop of `cleanup_old_logs`. -/
def validLogsLoop (cutoff : Int) : List LogEntry → List LogEntry
  | [] => []
  | e :: rest =>
    if keepRecent cutoff e then e :: validLogsLoop cutoff rest
    else validLogsLoop cutoff rest

/-- `cleanup_old_logs`: the surviving log and the deleted count. -/
def cleanup_old_logs (now : DateTime) (log : List LogEntry) :
    List LogEntry × Nat :=
  let valid := validLogsLoop (dtToEpochSecs now - 30 * 86400) log
  (valid, log.length - valid.length)

/-- `show_logs_by_date`: `none` models the invalid-date-format branch;
otherwise the entries whose timestamp string starts with `date_str`. -/
def show_logs_by_date (date_str : List Char) (log : List LogEntry) :
    Option (List LogEntry) :=
  match strptimeDate date_str with
  | none => none
  | some _ => some (log.filter (fun e => List.isPrefixOf date_str e.timestamp))

/-- `apply_log_filter`: parsed-date range and gas range. -/
def apply_log_filter (from_date to_date : Date) (min_gas max_gas : Int)
    (log : List GuiLogEntry) : List GuiLogEntry :=
  log.filter (fun e =>
    match strptimeDateTime e.timestamp with
    | some ts =>
      decide (dateToEpochDays from_date ≤ dateToEpochDays ts.date ∧
        dateToEpochDays ts.date ≤ dateToEpochDays to_date ∧
        min_gas ≤ e.gas ∧ e.gas ≤ max_gas)
    | none => false)

theorem validLogsLoop_eq_filter (cutoff : Int) (log : List LogEntry) :
    validLogsLoop cutoff log = log.filter (keepRecent cutoff) := by
  induction log with
  | nil => rfl
  | cons e rest ih =>
    rw [validLogsLoop, List.filter_cons]
    by_cases h : keepRecent cutoff e
    · rw [if_pos h, if_pos h, ih]
    · rw [if_neg h, if_neg h, ih]

theorem keepRecent_iff (cutoff : Int) (e : LogEntry) :
    keepRecent cutoff e = true ↔
      ∃ t, strptimeDateTime e.timestamp = some t ∧
        cutoff ≤ dtToEpochSecs t := by
  rw [keepRecent]
  rcases h : strptimeDateTime e.timestamp with _ | t
  · simp
  · simp only [decide_eq_true_eq]
    constructor
    · intro hle; exact ⟨t, rfl, hle⟩
    · rintro ⟨t2, ht2, hle⟩
      cases ht2
      exact hle

/-! ### Claim theorems: retention pruning and timestamp comparison -/

/-- Counterexample to C6 as stated: pruning also removes an entry whose
timestamp does not parse at all — an entry that is not "older than now
minus 30 days" (it has no date), yet is removed. -/
theorem C6_counterexample :
    strptimeDateTime "not-a-date".toList = none ∧
      cleanup_old_logs ⟨2024, 3, 15, 10, 0, 0⟩
          [⟨"not-a-date".toList, 5⟩] = ([], 1) :=
  ⟨by decide, by decide⟩

/-- C6 (amended): pruning with the 30-day cutoff removes exactly the
entries whose timestamp is older than `now - 30 days` **or fails to
parse** as `%Y-%m-%d %H:%M:%S`; it preserves the relative order of the
survivors, reports the number of removed entries, and an immediately
repeated prune (same `now`) removes 0 entries. -/
theorem C6_prune_retention (now : DateTime) (log : List LogEntry) :
    (∀ e : LogEntry, e ∈ (cleanup_old_logs now log).1 ↔
        e ∈ log ∧ ∃ t, strptimeDateTime e.timestamp = some t ∧
          dtToEpochSecs now - 30 * 86400 ≤ dtToEpochSecs t) ∧
      (cleanup_old_logs now log).1.Sublist log ∧
      (cleanup_old_logs now log).2 =
        log.length - (cleanup_old_logs now log).1.length ∧
      cleanup_old_logs now (cleanup_old_logs now log).1 =
        ((cleanup_old_logs now log).1, 0) := by
  have hv : (cleanup_old_logs now log).1 =
      log.filter (keepRecent (dtToEpochSecs now - 30 * 86400)) := by
    rw [cleanup_old_logs, validLogsLoop_eq_filter]
  refine ⟨?_, ?_, rfl, ?_⟩
  · intro e
    rw [hv, List.mem_filter, keepRecent_iff]
  · rw [hv]; exact List.filter_sublist log
  · have hall : ∀ e ∈ (cleanup_old_logs now log).1,
        keepRecent (dtToEpochSecs now - 30 * 86400) e = true := by
      intro e he
      rw [hv, List.mem_filter] at he
      exact he.2
    rw [cleanup_old_logs, validLogsLoop_eq_filter,
      List.filter_eq_self.mpr hall]
    simp

/-- Witness for C6: three entries around a concrete `now`; one old
entry is removed, two recent ones survive in order; the repeated prune
removes nothing. -/
theorem C6_prune_retention_witness :
    (⟨"2024-01-01 00:00:00".toList, 3⟩ : LogEntry) ∈
        (cleanup_old_logs ⟨2024, 3, 15, 10, 0, 0⟩
          [⟨"2024-01-01 00:00:00".toList, 3⟩]).1 →
      False :=
  fun h =>
    by
      have := (C6_prune_retention ⟨2024, 3, 15, 10, 0, 0⟩
        [⟨"2024-01-01 00:00:00".toList, 3⟩]).1 _ |>.mp h
      rcases this with ⟨-, t, ht, hle⟩
      rw [show strptimeDateTime "2024-01-01 00:00:00".toList =
        some ⟨2024, 1, 1, 0, 0, 0⟩ from by decide] at ht
      cases ht
      revert hle
      decide

/-- Counterexample to C7 as stated: the CLI date lookup selects an
entry whose timestamp string merely starts with the requested date but
parses as no date-time at all — a selection that no comparison of
parsed values could make, exposing the `startswith` string-prefix
comparison. -/
theorem C7_counterexample :
    strptimeDateTime "2024-03-15garbage".toList = none ∧
      show_logs_by_date "2024-03-15".toList
          [⟨"2024-03-15garbage".toList, 5⟩] =
        some [⟨"2024-03-15garbage".toList, 5⟩] :=
  ⟨by decide, by decide⟩

/-- C7 (amended): pruning and the GUI date-range filter select entries
through parsed timestamp values (an entry is kept only if its
timestamp parses and the parsed value lies in the required range), but
the CLI date lookup selects by a string-prefix test
(`timestamp.startswith(date_str)`), not by parsed values. -/
theorem C7_timestamp_comparison :
    (∀ (now : DateTime) (log : List LogEntry) (e : LogEntry),
        e ∈ (cleanup_old_logs now log).1 →
        ∃ t, strptimeDateTime e.timestamp = some t ∧
          dtToEpochSecs now - 30 * 86400 ≤ dtToEpochSecs t) ∧
      (∀ (fd td : Date) (mg xg : Int) (log : List GuiLogEntry)
          (e : GuiLogEntry), e ∈ apply_log_filter fd td mg xg log →
        ∃ t, strptimeDateTime e.timestamp = some t ∧
          dateToEpochDays fd ≤ dateToEpochDays t.date ∧
          dateToEpochDays t.date ≤ dateToEpochDays td ∧
          mg ≤ e.gas ∧ e.gas ≤ xg) ∧
      (∀ (d : List Char) (log l : List LogEntry),
        show_logs_by_date d log = some l →
        ∀ e : LogEntry, e ∈ l ↔
          e ∈ log ∧ List.isPrefixOf d e.timestamp = true) := by
  refine ⟨?_, ?_, ?_⟩
  · intro now log e he
    rw [cleanup_old_logs, validLogsLoop_eq_filter, List.mem_filter,
      keepRecent_iff] at he
    exact he.2
  · intro fd td mg xg log e he
    rw [apply_log_filter, List.mem_filter] at he
    have h2 := he.2
    rcases h : strptimeDateTime e.timestamp with _ | t <;> rw [h] at h2
    · exact Bool.noConfusion h2
    · rw [decide_eq_true_eq] at h2
      exact ⟨t, rfl, h2.1, h2.2.1, h2.2.2.1, h2.2.2.2⟩
  · intro d log l hl e
    rw [show_logs_by_date] at hl
    rcases hd : strptimeDate d with _ | dv <;> rw [hd] at hl
    · exact Option.noConfusion hl
    · cases hl
      rw [List.mem_filter]

/-- Witness for C7: the three selection operations at concrete inputs:
a surviving pruned entry, a range-filtered entry, and the prefix
characterization of the date lookup. -/
theorem C7_timestamp_comparison_witness :
    (∃ t, strptimeDateTime "2024-03-10 00:00:00".toList = some t ∧
        dtToEpochSecs ⟨2024, 3, 15, 10, 0, 0⟩ - 30 * 86400 ≤
          dtToEpochSecs t) ∧
      (∃ t, strptimeDateTime "2024-03-10 00:00:00".toList = some t ∧
        dateToEpochDays ⟨2024, 3, 1⟩ ≤ dateToEpochDays t.date ∧
        dateToEpochDays t.date ≤ dateToEpochDays ⟨2024, 3, 31⟩ ∧
        (0 : Int) ≤ 300 ∧ (300 : Int) ≤ 1023) ∧
      ((⟨"2024-03-15 10:00:00".toList, 7⟩ : LogEntry) ∈
          [(⟨"2024-03-15 10:00:00".toList, 7⟩ : LogEntry)] ↔
        (⟨"2024-03-15 10:00:00".toList, 7⟩ : LogEntry) ∈
            [(⟨"2024-03-15 10:00:00".toList, 7⟩ : LogEntry)] ∧
          List.isPrefixOf "2024-03-15".toList
            "2024-03-15 10:00:00".toList = true) :=
  ⟨C7_timestamp_comparison.1 ⟨2024, 3, 15, 10, 0, 0⟩
      [⟨"2024-03-10 00:00:00".toList, 3⟩]
      ⟨"2024-03-10 00:00:00".toList, 3⟩ (by decide),
   C7_timestamp_comparison.2.1 ⟨2024, 3, 1⟩ ⟨2024, 3, 31⟩ 0 1023
      [⟨"2024-03-10 00:00:00".toList, 300, ON, OFF, ON, 400⟩]
      ⟨"2024-03-10 00:00:00".toList, 300, ON, OFF, ON, 400⟩ (by decide),
   C7_timestamp_comparison.2.2 "2024-03-15".toList
      [⟨"2024-03-15 10:00:00".toList, 7⟩]
      [⟨"2024-03-15 10:00:00".toList, 7⟩] (by decide)
      ⟨"2024-03-15 10:00:00".toList, 7⟩⟩

/-! ### JSON snapshot: `save_logs` / `json.load`

`GasMonitorController.save_logs` (198–208) writes the whole entry list
as a JSON array of two-key objects (`json.dump(self.log_data, file,
indent=2)`); `setup_logging` (53–73) reads it back with `json.load`
and, on any exception, resets the store to an empty list.  The codec
is modelled specialised to the flat list-of-records schema this
program ever writes: objects with exactly the keys `timestamp`
(string) and `gas_value` (integer) in that insertion order.
Inter-token whitespace (the `indent=2` pretty-printing) is cosmetic
and elided; string escaping is not modelled, so the round-trip theorem
assumes timestamps free of `"` and `\` — every `strftime`-produced
timestamp is. -/

/-- The characters of the JSON key `timestamp`. -/
def keyTimestampChars : List Char := ['t', 'i', 'm', 'e', 's', 't', 'a', 'm', 'p']

/-- The characters of the JSON key `gas_value`. -/
def keyGasValueChars : List Char := ['g', 'a', 's', '_', 'v', 'a', 'l', 'u', 'e']

/-- A JSON string literal (no escaping; see the section comment). -/
def printString (s : List Char) : List Char := '"' :: (s ++ ['"'])

/-- The opening of an entry object up to the timestamp value. -/
def entryPre1 : List Char := '\x7b' :: '"' :: (keyTimestampChars ++ ['"', ':'])

/-- The middle of an entry object up to the gas value. -/
def entryPre2 : List Char := ',' :: '"' :: (keyGasValueChars ++ ['"', ':'])

/-- One serialised entry object. -/
def printEntry (e : LogEntry) : List Char :=
  entryPre1 ++ (printString e.timestamp ++
    (entryPre2 ++ (intToChars e.gas_value ++ ['\x7d'])))

/-- The serialised tail of an array after its first entry: each
further entry preceded by `,`, then the closing `]`. -/
def printRestEntries : List LogEntry → List Char
  | [] => [']']
  | e :: rest => ',' :: (printEntry e ++ printRestEntries rest)

/-- `json.dump` of the whole store. -/
def save_logs : List LogEntry → List Char
  | [] => ['[', ']']
  | e :: rest => '[' :: (printEntry e ++ printRestEntries rest)

/-- Scan a string literal body up to the closing quote. -/
def scanString : List Char → Option (List Char × List Char)
  | [] => none
  | c :: rest =>
    if c = '"' then some ([], rest)
    else (scanString rest).map (fun p => (c :: p.1, p.2))

/-- Parse a JSON string literal. -/
def parseStringLit : List Char → Option (List Char × List Char)
  | c :: rest => if c = '"' then scanString rest else none
  | [] => none

/-- Consume an expected literal character sequence. -/
def expectChars : List Char → List Char → Option (List Char)
  | [], cs => some cs
  | p :: ps, c :: cs => if c = p then expectChars ps cs else none
  | _ :: _, [] => none

/-- Longest digit run at the head of the input. -/
def takeDigits : List Char → List Char × List Char
  | [] => ([], [])
  | c :: rest =>
    if '0' ≤ c ∧ c ≤ '9' then
      let p := takeDigits rest
      (c :: p.1, p.2)
    else ([], c :: rest)

/-- Parse a JSON integer token. -/
def parseIntTok (cs : List Char) : Option (Int × List Char) :=
  match cs with
  | [] => none
  | c :: rest =>
    if c = '-' then
      (parseNat (takeDigits rest).1).map
        (fun n => (-(n : Int), (takeDigits rest).2))
    else
      (parseNat (takeDigits (c :: rest)).1).map
        (fun n => ((n : Int), (takeDigits (c :: rest)).2))

/-- Parse one entry object. -/
def parseEntry (cs : List Char) : Option (LogEntry × List Char) :=
  (expectChars entryPre1 cs).bind (fun r1 =>
    (parseStringLit r1).bind (fun p1 =>
      (expectChars entryPre2 p1.2).bind (fun r3 =>
        (parseIntTok r3).bind (fun p2 =>
          (expectChars ['\x7d'] p2.2).map (fun r5 =>
            (⟨p1.1, p2.1⟩, r5))))))

/-- Parse the remaining `, entry`* `]` tail of the array; the fuel
bounds the number of further entries (one is consumed per `,`). -/
def parseMoreEntries : Nat → List Char → Option (List LogEntry)
  | _, ']' :: rest => if rest = [] then some [] else none
  | fuel + 1, ',' :: rest =>
    (parseEntry rest).bind (fun p =>
      (parseMoreEntries fuel p.2).map (fun es => p.1 :: es))
  | _, _ => none

/-- `json.load` of a snapshot file, `none` on any parse failure. -/
def load_snapshot (cs : List Char) : Option (List LogEntry) :=
  match cs with
  | '[' :: r =>
    if r = [']'] then some []
    else
      (parseEntry r).bind (fun p =>
        (parseMoreEntries p.2.length p.2).map (fun es => p.1 :: es))
  | _ => none

/-- The store produced by `setup_logging`'s snapshot read: no file
yields an empty store, a parse failure resets to an empty store. -/
def setup_logging_store (file : Option (List Char)) : List LogEntry :=
  match file with
  | none => []
  | some cs =>
    match load_snapshot cs with
    | some l => l
    | none => []

/-! Round-trip facts for the snapshot codec. -/

theorem expectChars_append (p rest : List Char) :
    expectChars p (p ++ rest) = some rest := by
  induction p with
  | nil => rfl
  | cons c ps ih => rw [List.cons_append, expectChars, if_pos rfl, ih]

theorem scanString_append (s rest : List Char) (h : ∀ c ∈ s, c ≠ '"') :
    scanString (s ++ '"' :: rest) = some (s, rest) := by
  induction s with
  | nil => rw [List.nil_append, scanString, if_pos rfl]
  | cons c cs ih =>
    rw [List.cons_append, scanString, if_neg (h c (by simp)),
      ih (fun x hx => h x (by simp [hx]))]
    rfl

theorem parseStringLit_round (s rest : List Char) (h : ∀ c ∈ s, c ≠ '"') :
    parseStringLit ('"' :: (s ++ '"' :: rest)) = some (s, rest) := by
  rw [parseStringLit, if_pos rfl, scanString_append s rest h]

theorem takeDigits_append (ds rest : List Char)
    (hds : ∀ c ∈ ds, '0' ≤ c ∧ c ≤ '9')
    (hrest : ∀ c l, rest = c :: l → ¬('0' ≤ c ∧ c ≤ '9')) :
    takeDigits (ds ++ rest) = (ds, rest) := by
  induction ds with
  | nil =>
    rw [List.nil_append]
    rcases rest with _ | ⟨c, l⟩
    · rfl
    · rw [takeDigits, if_neg (hrest c l rfl)]
  | cons c cs ih =>
    rw [List.cons_append, takeDigits, if_pos (hds c (by simp)),
      ih (fun x hx => hds x (by simp [hx]))]

theorem parseIntTok_round (g : Int) (rest : List Char)
    (hrest : ∀ c l, rest = c :: l → ¬('0' ≤ c ∧ c ≤ '9')) :
    parseIntTok (intToChars g ++ rest) = some (g, rest) := by
  by_cases hg : g < 0
  · rw [intToChars, if_pos hg, List.cons_append, parseIntTok, if_pos rfl,
      takeDigits_append _ _ (natToChars_digits g.natAbs) hrest]
    show (parseNat (natToChars g.natAbs)).map
      (fun n => (-(n : Int), rest)) = some (g, rest)
    rw [parseNat_natToChars]
    show some (-(g.natAbs : Int), rest) = some (g, rest)
    congr 2
    omega
  · rw [intToChars, if_neg hg]
    rcases hcs : natToChars g.natAbs with _ | ⟨c, cs⟩
    · exact absurd hcs (natToChars_ne_nil _)
    have hdig : ∀ x ∈ c :: cs, '0' ≤ x ∧ x ≤ '9' := by
      rw [← hcs]; exact natToChars_digits g.natAbs
    have hc := hdig c (by simp)
    obtain ⟨-, -, hm, -⟩ := digit_not_special c hc
    rw [List.cons_append, parseIntTok, if_neg hm, ← List.cons_append,
      takeDigits_append _ _ hdig hrest]
    show (parseNat (c :: cs)).map
      (fun n => ((n : Int), rest)) = some (g, rest)
    rw [← hcs, parseNat_natToChars]
    show some ((g.natAbs : Int), rest) = some (g, rest)
    congr 2
    omega

theorem parseEntry_round (e : LogEntry) (rest : List Char)
    (h : ∀ c ∈ e.timestamp, c ≠ '"') :
    parseEntry (printEntry e ++ rest) = some (e, rest) := by
  have hshape : printEntry e ++ rest =
      entryPre1 ++ ('"' :: (e.timestamp ++ '"' ::
        (entryPre2 ++ (intToChars e.gas_value ++ '\x7d' :: rest)))) := by
    rw [printEntry, printString]
    simp [List.append_assoc]
  have hclose : expectChars ['\x7d'] ('\x7d' :: rest) = some rest := by
    simp [expectChars]
  rw [hshape, parseEntry, expectChars_append, Option.some_bind,
    parseStringLit_round e.timestamp _ h, Option.some_bind]
  show (expectChars entryPre2 (entryPre2 ++
      (intToChars e.gas_value ++ '\x7d' :: rest))).bind _ = _
  rw [expectChars_append, Option.some_bind,
    parseIntTok_round e.gas_value ('\x7d' :: rest)
      (by intro c l hcl; cases hcl; decide), Option.some_bind]
  show (expectChars ['\x7d'] ('\x7d' :: rest)).map _ = _
  rw [hclose]
  rfl

theorem parseMoreEntries_close (fuel : Nat) (rest : List Char) :
    parseMoreEntries fuel (']' :: rest) =
      if rest = [] then some [] else none := by
  cases fuel <;> rfl

theorem parseMoreEntries_round (l : List LogEntry) (fuel : Nat)
    (hfuel : l.length ≤ fuel)
    (h : ∀ e ∈ l, ∀ c ∈ e.timestamp, c ≠ '"') :
    parseMoreEntries fuel (printRestEntries l) = some l := by
  induction l generalizing fuel with
  | nil => rw [printRestEntries, parseMoreEntries_close, if_pos rfl]
  | cons e ls ih =>
    rcases fuel with _ | f
    · exact absurd hfuel (by simp)
    rw [printRestEntries]
    show (parseEntry (printEntry e ++ printRestEntries ls)).bind
      (fun p => (parseMoreEntries f p.2).map (fun es => p.1 :: es)) =
      some (e :: ls)
    rw [parseEntry_round e _ (h e (by simp)), Option.some_bind]
    show (parseMoreEntries f (printRestEntries ls)).map _ = _
    rw [ih f (by simpa using hfuel) (fun x hx => h x (by simp [hx]))]
    rfl

theorem length_le_printRestEntries (l : List LogEntry) :
    l.length ≤ (printRestEntries l).length := by
  induction l with
  | nil => simp [printRestEntries]
  | cons e ls ih =>
    rw [printRestEntries]
    simp only [List.length_cons, List.length_append]
    omega

theorem load_snapshot_cons (r : List Char) :
    load_snapshot ('[' :: r) =
      if r = [']'] then some []
      else (parseEntry r).bind (fun p =>
        (parseMoreEntries p.2.length p.2).map (fun es => p.1 :: es)) := rfl

theorem load_save_roundtrip (l : List LogEntry)
    (h : ∀ e ∈ l, ∀ c ∈ e.timestamp, c ≠ '"') :
    load_snapshot (save_logs l) = some l := by
  rcases l with _ | ⟨e, ls⟩
  · rfl
  · have hne : printEntry e ++ printRestEntries ls ≠ [']'] := by
      intro hEq
      have h0 : (printEntry e ++ printRestEntries ls).head? = some '\x7b' := by
        rw [printEntry]; rfl
      rw [hEq] at h0
      simp at h0
    rw [save_logs, load_snapshot_cons, if_neg hne,
      parseEntry_round e _ (h e (by simp)), Option.some_bind]
    show (parseMoreEntries (printRestEntries ls).length
      (printRestEntries ls)).map _ = _
    rw [parseMoreEntries_round ls (printRestEntries ls).length
      (length_le_printRestEntries ls) (fun x hx => h x (by simp [hx]))]
    rfl

/-! ### Claim theorem: snapshot round trip -/

/-- C8: saving the store and loading the saved bytes reproduces the
identical ordered entry sequence; a missing file yields an empty
store, and a snapshot that fails to parse does not fail the process
but resets the store to empty.  (String escaping is outside the
modelled codec, so timestamps are assumed quote- and backslash-free —
every timestamp the program writes is produced by
`strftime('%Y-%m-%d %H:%M:%S')` and is.) -/
theorem C8_save_load_roundtrip (log : List LogEntry)
    (h : ∀ e ∈ log, ∀ c ∈ e.timestamp, c ≠ '"' ∧ c ≠ '\\') :
    load_snapshot (save_logs log) = some log ∧
      setup_logging_store (some (save_logs log)) = log ∧
      setup_logging_store none = [] ∧
      (∀ cs : List Char, load_snapshot cs = none →
        setup_logging_store (some cs) = []) := by
  have hq : ∀ e ∈ log, ∀ c ∈ e.timestamp, c ≠ '"' :=
    fun e he c hc => (h e he c hc).1
  have h1 := load_save_roundtrip log hq
  refine ⟨h1, ?_, rfl, ?_⟩
  · show (match load_snapshot (save_logs log) with
      | some l => l
      | none => []) = log
    rw [h1]
  · intro cs hcs
    show (match load_snapshot cs with
      | some l => l
      | none => []) = []
    rw [hcs]

/-- Witness for C8: a two-entry store with `strftime`-shaped
timestamps round-trips exactly, and the corrupt snapshot `garbage`
resets the store to empty. -/
theorem C8_save_load_roundtrip_witness :
    load_snapshot (save_logs
        [⟨"2024-03-15 10:00:00".toList, 523⟩,
         ⟨"2024-03-15 10:05:00".toList, 510⟩]) =
      some [⟨"2024-03-15 10:00:00".toList, 523⟩,
            ⟨"2024-03-15 10:05:00".toList, 510⟩] ∧
      setup_logging_store (some (save_logs
        [⟨"2024-03-15 10:00:00".toList, 523⟩,
         ⟨"2024-03-15 10:05:00".toList, 510⟩])) =
        [⟨"2024-03-15 10:00:00".toList, 523⟩,
         ⟨"2024-03-15 10:05:00".toList, 510⟩] ∧
      setup_logging_store none = [] ∧
      setup_logging_store (some "garbage".toList) = [] :=
  have hmain := C8_save_load_roundtrip
    [⟨"2024-03-15 10:00:00".toList, 523⟩,
     ⟨"2024-03-15 10:05:00".toList, 510⟩] (by decide)
  ⟨hmain.1, hmain.2.1, hmain.2.2.1,
   hmain.2.2.2 "garbage".toList (by decide)⟩

/-! ### Append-and-snapshot policies

`GasMonitorGUI.handle_serial_data` (`kode.py` 1033–1058) appends every
incoming record to `log_data` and calls `save_log_to_file()` exactly
when `len(log_data) % 10 == 0` after the append.
`GasMonitorController.add_log_entry` (`gas_monitor_CLI.py` 210–239)
appends (when the delta filter accepts) and calls `save_logs()` on
every append.  `unsaved` is a ghost field counting appends since the
last snapshot write (0 right after loading or saving); it tracks
durability only — the policy-level model takes the write itself to
succeed. -/

/-- GUI store with the ghost unsaved-append counter. -/
structure GuiStore where
  log_data : List GuiLogEntry
  unsaved : Nat
deriving DecidableEq, Repr

/-- One `handle_serial_data` call: append, snapshot at multiples of 10. -/
def handle_serial_data (st : GuiStore) (r : GuiLogEntry) : GuiStore :=
  let log := st.log_data ++ [r]
  if log.length % 10 = 0 then ⟨log, 0⟩ else ⟨log, st.unsaved + 1⟩

/-- A whole schedule of incoming records. -/
def handleAll (st : GuiStore) (rs : List GuiLogEntry) : GuiStore :=
  rs.foldl handle_serial_data st

/-- CLI controller state for `add_log_entry`. -/
structure CliState where
  last_gas_value : Option Int
  log_data : List LogEntry
  unsaved : Nat
deriving DecidableEq, Repr

/-- One `add_log_entry` call: delta-filter, append with a
`strftime`-stamped entry, save immediately (so `unsaved` drops to 0),
and remember the value for the next delta check. -/
def add_log_entry (now : DateTime) (st : CliState) (gas_value : Int) :
    CliState :=
  if should_log_data st.last_gas_value gas_value then
    ⟨some gas_value,
     st.log_data ++ [⟨strftimeDateTime now, gas_value⟩], 0⟩
  else st

theorem handle_serial_data_inv (st : GuiStore) (r : GuiLogEntry)
    (h : st.unsaved ≤ st.log_data.length % 10) :
    (handle_serial_data st r).unsaved ≤
      (handle_serial_data st r).log_data.length % 10 := by
  rw [handle_serial_data]
  by_cases h10 : (st.log_data ++ [r]).length % 10 = 0
  · rw [if_pos h10]
    exact Nat.zero_le _
  · rw [if_neg h10]
    simp only [List.length_append, List.length_cons, List.length_nil] at *
    omega

theorem handleAll_inv (rs : List GuiLogEntry) :
    ∀ st : GuiStore, st.unsaved ≤ st.log_data.length % 10 →
      (handleAll st rs).unsaved ≤
        (handleAll st rs).log_data.length % 10 := by
  induction rs with
  | nil => intro st h; exact h
  | cons r rest ih =>
    intro st h
    rw [handleAll, List.foldl_cons]
    exact ih (handle_serial_data st r) (handle_serial_data_inv st r h)

/-! ### Claim theorem: snapshot batching bound -/

/-- C9: starting from a freshly loaded (fully durable) store, after
every append the number of entries appended since the last snapshot
write is at most 9: the GUI writes whenever the total count reaches a
multiple of 10, the CLI writes immediately on each append (0 unsaved);
appends always go at the end (arrival order). -/
theorem C9_snapshot_batching :
    (∀ (l0 : List GuiLogEntry) (rs : List GuiLogEntry),
        (handleAll ⟨l0, 0⟩ rs).unsaved ≤ 9) ∧
      (∀ (st : GuiStore) (r : GuiLogEntry),
        (handle_serial_data st r).log_data = st.log_data ++ [r] ∧
        ((handle_serial_data st r).unsaved = 0 ↔
          (st.log_data.length + 1) % 10 = 0)) ∧
      (∀ (now : DateTime) (last : Option Int) (log : List LogEntry)
          (g : Int), (add_log_entry now ⟨last, log, 0⟩ g).unsaved = 0) := by
  refine ⟨?_, ?_, ?_⟩
  · intro l0 rs
    have h := handleAll_inv rs ⟨l0, 0⟩ (Nat.zero_le _)
    have h9 : (handleAll ⟨l0, 0⟩ rs).log_data.length % 10 ≤ 9 := by omega
    omega
  · intro st r
    rw [handle_serial_data]
    by_cases h10 : (st.log_data ++ [r]).length % 10 = 0 <;>
      simp only [List.length_append, List.length_cons, List.length_nil]
        at h10 ⊢
    · rw [if_pos (by simpa using h10)]
      simpa using h10
    · rw [if_neg (by simpa using h10)]
      simpa using h10
  · intro now last log g
    rw [add_log_entry]
    split <;> rfl

/-! ### Link session: connect retries and the GUI fallback

`GasMonitorController.connect_serial` (`gas_monitor_CLI.py` 110–196):
if the configured port is not among the enumerated ports it returns
`False` immediately (zero open attempts); otherwise up to 3 attempts,
each preceded by a forced close and `time.sleep(3)`, with a further
`time.sleep(3)` after a failed non-final attempt; `True` on the first
successful open, `False` after the third failure.  The oracle
`openOk i` tells whether the `i`-th `serial.Serial(...)` call
succeeds; the event trace records sleeps and open attempts.

`GasMonitorGUI.attempt_initial_connection` (`kode.py` 883–919): with
no ports it starts demo mode with zero attempts; otherwise it makes a
single `serial.Serial(port, 9600, timeout=1)` attempt and on success
is connected, on any exception starts demo mode — there is no retry
loop in the GUI. -/

/-- Observable events of a connect call. -/
inductive ConnectEvent where
  | sleep (seconds : Nat)
  | tryOpen (success : Bool)
deriving DecidableEq, Repr

/-- The attempt loop of `connect_serial`: `i` is the index of the next
attempt, the second argument the number of attempts left. -/
def connectAttempts (openOk : Nat → Bool) : Nat → Nat → Bool × List ConnectEvent
  | _, 0 => (false, [])
  | i, n + 1 =>
    if openOk i then (true, [ConnectEvent.sleep 3, ConnectEvent.tryOpen true])
    else
      ((connectAttempts openOk (i + 1) n).1,
        ConnectEvent.sleep 3 :: ConnectEvent.tryOpen false ::
          ((if n = 0 then [] else [ConnectEvent.sleep 3]) ++
            (connectAttempts openOk (i + 1) n).2))

/-- `connect_serial`: immediate failure when the port is not
enumerated, else up to 3 attempts. -/
def connect_serial (portAvailable : Bool) (openOk : Nat → Bool) :
    Bool × List ConnectEvent :=
  if portAvailable then connectAttempts openOk 0 3 else (false, [])

/-- Number of open attempts in a trace. -/
def countOpens : List ConnectEvent → Nat
  | [] => 0
  | ConnectEvent.tryOpen _ :: rest => countOpens rest + 1
  | ConnectEvent.sleep _ :: rest => countOpens rest

/-- Worker for `attemptsSeparated`: `acc` is the sleep time since the
previous open attempt, `seen` whether an attempt has happened yet. -/
def sepAux : Nat → Bool → List ConnectEvent → Bool
  | _, _, [] => true
  | acc, seen, ConnectEvent.sleep s :: rest => sepAux (acc + s) seen rest
  | acc, seen, ConnectEvent.tryOpen _ :: rest =>
    (!seen || decide (3 ≤ acc)) && sepAux 0 true rest

/-- Every open attempt after the first is preceded by at least 3 time
units of sleep since the previous attempt. -/
def attemptsSeparated (evs : List ConnectEvent) : Bool := sepAux 0 false evs

/-- The GUI link state after startup. -/
inductive GuiConn where
  | connected
  | demo
deriving DecidableEq, Repr

/-- `attempt_initial_connection`: resulting state and number of open
attempts made. -/
def attempt_initial_connection (portsPresent openOk : Bool) :
    GuiConn × Nat :=
  if portsPresent then
    (if openOk then (GuiConn.connected, 1) else (GuiConn.demo, 1))
  else (GuiConn.demo, 0)

/-! ### Claim theorems: connect retry and demo fallback -/

/-- Counterexample to C5 as stated: the supervised (GUI) variant
enters Demo mode after a single failed connect attempt — it has no
3-attempt loop, so "exhausting the 3 connect attempts" is not what
triggers the transition to Demo. -/
theorem C5_counterexample :
    attempt_initial_connection true false = (GuiConn.demo, 1) := by decide

/-- C5 (amended): the CLI `connect_serial` makes up to 3 open attempts
when the port is enumerated, reports failure only after all 3 have
failed, separates consecutive attempts by at least 3 time units of
back-off, and fails immediately with zero attempts when the port is
not enumerated; the GUI variant performs exactly one open attempt when
ports are present (entering Demo on its failure) and zero attempts
(straight to Demo) when none are present. -/
theorem C5_connect_retry :
    (∀ openOk : Nat → Bool,
        countOpens (connect_serial true openOk).2 ≤ 3) ∧
      (∀ openOk : Nat → Bool, (connect_serial true openOk).1 = false →
        countOpens (connect_serial true openOk).2 = 3) ∧
      (∀ openOk : Nat → Bool,
        attemptsSeparated (connect_serial true openOk).2 = true) ∧
      (∀ openOk : Nat → Bool, connect_serial false openOk = (false, [])) ∧
      attempt_initial_connection false false = (GuiConn.demo, 0) ∧
      attempt_initial_connection false true = (GuiConn.demo, 0) ∧
      attempt_initial_connection true false = (GuiConn.demo, 1) ∧
      attempt_initial_connection true true = (GuiConn.connected, 1) := by
  refine ⟨?_, ?_, ?_, fun openOk => rfl, rfl, rfl, rfl, rfl⟩
  · intro openOk
    by_cases h0 : openOk 0 = true <;> by_cases h1 : openOk 1 = true <;>
      by_cases h2 : openOk 2 = true <;>
        simp [connect_serial, connectAttempts, h0, h1, h2, countOpens]
  · intro openOk hfail
    by_cases h0 : openOk 0 = true <;> by_cases h1 : openOk 1 = true <;>
      by_cases h2 : openOk 2 = true <;>
        simp [connect_serial, connectAttempts, h0, h1, h2,
          countOpens] at hfail ⊢
  · intro openOk
    by_cases h0 : openOk 0 = true <;> by_cases h1 : openOk 1 = true <;>
      by_cases h2 : openOk 2 = true <;>
        simp [connect_serial, connectAttempts, h0, h1, h2,
          attemptsSeparated, sepAux]

/-- Witness for C5: with every open failing, the CLI makes exactly 3
attempts before reporting failure, properly separated. -/
theorem C5_connect_retry_witness :
    countOpens (connect_serial true (fun _ => false)).2 = 3 ∧
      attemptsSeparated (connect_serial true (fun _ => false)).2 = true :=
  ⟨C5_connect_retry.2.1 (fun _ => false) (by decide),
   C5_connect_retry.2.2.1 (fun _ => false)⟩

end GasMonitor
